import Mathlib

/-!
Verification development for the EditorialLinks pipeline (src/working model/app.py).

Strings are modelled as `List Char`.  Spreadsheet cells are `Option (List Char)`
(`none` plays the role of a missing value / NaN).  Network and file-system
effects are modelled by explicit oracles and an explicit file set threaded
through the orchestrator.
-/

namespace EditorialLinks

/-- Characters of a string literal, the working representation of Python str. -/
def cs (s : String) : List Char := s.data

/-- Whitespace as stripped by Python str.strip (ASCII fragment). -/
def pyWs (c : Char) : Bool :=
  (c = ' ') || (c = '\t') || (c = '\n') || (c = '\r') || (c = '\x0b') || (c = '\x0c')

/-- Python str.strip: drop whitespace from both ends. -/
def pyStrip (s : List Char) : List Char :=
  ((s.dropWhile pyWs).reverse.dropWhile pyWs).reverse

/-- The character class replaced by sanitize_filename (app.py line 27). -/
def invalidFileChar (c : Char) : Bool :=
  (c = '<') || (c = '>') || (c = ':') || (c = '"') || (c = '/') ||
  (c = '\\') || (c = '|') || (c = '?') || (c = '*')

/-- One step of the re.sub on line 27: an invalid character becomes an underscore. -/
def replChar (c : Char) : Char := if invalidFileChar c then '_' else c

/-- Boolean prefix test on character lists. -/
def isPreOf : List Char → List Char → Bool
  | [], _ => true
  | _ :: _, [] => false
  | a :: as, b :: bs => decide (a = b) && isPreOf as bs

/-- Fuelled worker for Python str.replace: scan left to right, replacing each
non-overlapping occurrence of the (non-empty) pattern.  One unit of fuel is
spent per step and every step consumes at least one character, so fuel equal to
the length of the input suffices; when fuel runs out the rest is returned as is. -/
def replaceFuel (pat rep : List Char) : Nat → List Char → List Char
  | 0, l => l
  | _ + 1, [] => []
  | fuel + 1, c :: t =>
    if pat ≠ [] ∧ isPreOf pat (c :: t) = true then
      rep ++ replaceFuel pat rep fuel ((c :: t).drop pat.length)
    else
      c :: replaceFuel pat rep fuel t

/-- Python str.replace pat → rep, all non-overlapping occurrences, left to right. -/
def replaceList (pat rep s : List Char) : List Char := replaceFuel pat rep s.length s

/-- sanitize_filename (app.py lines 21-28).  `none` stands for a missing (NaN)
or non-string value, which yields the fixed placeholder.  A string is stripped,
has every occurrence of the two URL schemes removed, every invalid character
replaced by an underscore, and is truncated to 200 characters. -/
def sanitize_filename : Option (List Char) → List Char
  | none => cs ("Untitled")
  | some s =>
    ((replaceList (cs ("http://")) []
        (replaceList (cs ("https://")) [] (pyStrip s))).map replChar).take 200

/-- The character class of the document-id group in extract_file_id's regex. -/
def idChar (c : Char) : Bool := c.isAlphanum || (c = '-') || (c = '_')

/-- The literal part of extract_file_id's regex (app.py line 18). -/
def docIdPat : List Char := cs ("https://docs.google.com/document/d/")

/-- Match extract_file_id's pattern at the head of the input: the literal URL
prefix followed by a non-empty greedy run of id characters. -/
def idMatchAt (s : List Char) : Option (List Char) :=
  if isPreOf docIdPat s then
    if ((s.drop docIdPat.length).takeWhile idChar).isEmpty then none
    else some ((s.drop docIdPat.length).takeWhile idChar)
  else none

/-- re.search for extract_file_id's pattern: try each start position left to right. -/
def searchDocId : List Char → Option (List Char)
  | [] => none
  | c :: t =>
    match idMatchAt (c :: t) with
    | some r => some r
    | none => searchDocId t

/-- extract_file_id (app.py lines 13-19): `none` input stands for NaN or a
non-string value; otherwise the first document id found in the string. -/
def extract_file_id : Option (List Char) → Option (List Char)
  | none => none
  | some s => searchDocId s

/-- Match the URL regex of line 60 at the head of the input: a scheme literal
followed by a non-empty greedy run of non-whitespace.  Returns the match and
the remaining input after it. -/
def urlMatchAt (s : List Char) : Option (List Char × List Char) :=
  if isPreOf (cs ("https://")) s then
    if (((s.drop 8).takeWhile (fun c => !pyWs c))).isEmpty then none
    else some (cs ("https://") ++ (s.drop 8).takeWhile (fun c => !pyWs c),
      (s.drop 8).drop (((s.drop 8).takeWhile (fun c => !pyWs c))).length)
  else if isPreOf (cs ("http://")) s then
    if (((s.drop 7).takeWhile (fun c => !pyWs c))).isEmpty then none
    else some (cs ("http://") ++ (s.drop 7).takeWhile (fun c => !pyWs c),
      (s.drop 7).drop (((s.drop 7).takeWhile (fun c => !pyWs c))).length)
  else none

/-- Fuelled worker for re.findall of the URL pattern: scan start positions left
to right, emitting each non-overlapping match and resuming after it.  Every
step consumes at least one character, so fuel equal to the input length suffices. -/
def findallFuel : Nat → List Char → List (List Char)
  | 0, _ => []
  | _ + 1, [] => []
  | fuel + 1, c :: t =>
    match urlMatchAt (c :: t) with
    | some (m, r) => m :: findallFuel fuel r
    | none => findallFuel fuel t

/-- url_pattern.findall (app.py lines 60, 73). -/
def findall (s : List Char) : List (List Char) := findallFuel s.length s

/-- Python substring containment test (the `in` operator on str). -/
def substrB (pat : List Char) : List Char → Bool
  | [] => pat.isEmpty
  | c :: t => isPreOf pat (c :: t) || substrB pat t

/-- Outcome of check_editorial_use, one constructor per returned string:
confirmed is the source's marker string for editorial use only. -/
inductive Verdict where
  | confirmed
  | notEditorial
  | fetchFailed
  | fetchError
deriving DecidableEq

/-- What the network answers when a candidate URL is fetched by the classifier:
either a status code together with whether the page text carries the literal
marker substring, or a transport-level exception. -/
inductive ClassOutcome where
  | response (code : Nat) (hasMarker : Bool)
  | netError

/-- The classifier's view of the network, one answer per URL. -/
abbrev Net := List Char → ClassOutcome

/-- check_editorial_use (app.py lines 83-94): non-200 fails, a 200 body is
tested for the marker, a transport exception yields the error verdict. -/
def check_editorial_use (net : Net) (url : List Char) : Verdict :=
  match net url with
  | ClassOutcome.netError => Verdict.fetchError
  | ClassOutcome.response code marker =>
    if code ≠ 200 then Verdict.fetchFailed
    else if marker then Verdict.confirmed else Verdict.notEditorial

/-- One page of the rendered document: the embedded hyperlinks in the order the
document exposes them (`none` stands for a link dictionary without a uri key)
and the page's plain text. -/
structure Page where
  links : List (Option (List Char))
  text : List Char

/-- extract_editorial_links_from_pdf (app.py lines 55-81), given the opened
document's pages: for each page, first every embedded hyperlink that the
classifier confirms is appended, then every plain-text URL match containing
the 123rf token that the classifier confirms is appended. -/
def extract_editorial_links_from_pdf (pages : List Page) (net : Net) : List (List Char) :=
  pages.foldl
    (fun acc page =>
      (findall page.text).foldl
        (fun a url =>
          if substrB (cs ("123rf")) url then
            if check_editorial_use net url = Verdict.confirmed then a ++ [url] else a
          else a)
        (page.links.foldl
          (fun a l =>
            match l with
            | some url =>
              if check_editorial_use net url = Verdict.confirmed then a ++ [url] else a
            | none => a)
          acc))
    []

/-- One HTTP attempt of download_pdf as the network sees it: an explicit
response with a status code, or a transport-level exception. -/
inductive Attempt where
  | response (code : Nat)
  | exc

/-- The while loop of download_pdf (app.py lines 39-53).  The oracle gives the
outcome of each attempt in order; the fuel is max_retries minus retry_count, so
the loop condition retry_count < max_retries is fuel > 0.  Returns the result,
the number of attempts made, and the list of files written. -/
def downloadLoop (oracle : Nat → Attempt) (pdfName : List Char) :
    Nat → Nat → Option (List Char) × Nat × List (List Char)
  | 0, rc => (none, rc, [])
  | fuel + 1, rc =>
    match oracle rc with
    | Attempt.response code =>
      if code = 200 then (some pdfName, rc + 1, [pdfName])
      else (none, rc + 1, [])
    | Attempt.exc => downloadLoop oracle pdfName fuel (rc + 1)

/-- download_pdf (app.py lines 30-53): the file name is sanitized again inside
the function and suffixed with .pdf; the export URL built from the id only
feeds the request and has no further observable effect here. -/
def download_pdf (fileId : List Char) (fileName : Option (List Char))
    (oracle : Nat → Attempt) (maxRetries : Nat) :
    Option (List Char) × Nat × List (List Char) :=
  downloadLoop oracle (sanitize_filename fileName ++ cs (".pdf")) maxRetries 0

/-- A result dictionary appended to the results list (title and links). -/
structure ResultRecord where
  title : List Char
  links : List (List Char)
deriving DecidableEq

/-- One spreadsheet row together with the behaviour the environment would show
for it: the two cells (`none` is a missing / NaN cell), the per-attempt fetch
outcomes, the document-open outcome with the pages on success, and the
classifier network. -/
structure RowInput where
  docUrl : Option (List Char)
  websiteUrl : Option (List Char)
  attempts : Nat → Attempt
  doc : Except Unit (List Page)
  net : Net

/-- The mutable state of process_google_docs_from_excel: the results list, the
current values of the locals formatted_title and editorial_links (`none` while
unbound), and the set of local files currently present. -/
structure PState where
  results : List ResultRecord
  ft : Option (List Char)
  el : Option (List (List Char))
  fs : List (List Char)

/-- How a run aborts: the NameError raised by the append on line 114 when the
locals are still unbound, or the exception propagating out of fitz.open. -/
inductive RunErr where
  | nameError
  | openError
deriving DecidableEq

/-- Creating a local file (open for writing). -/
def fsCreate (fs : List (List Char)) (p : List Char) : List (List Char) :=
  if p ∈ fs then fs else p :: fs

/-- os.remove of a local file. -/
def fsRemove (fs : List (List Char)) (p : List Char) : List (List Char) :=
  fs.filter (fun q => !decide (q = p))

/-- One iteration of the row loop (app.py lines 108-141).  A row with a missing
cell runs the append on line 114 with the current values of the locals, which
raises NameError when either is unbound.  Otherwise the id is extracted; on
success the document is fetched; on success it is opened (a failure there
propagates, leaving the file behind); the links are extracted, the file removed,
and for a non-empty link list the record is appended twice plus once per link
(lines 129, 134, 138). -/
def processRow (r : RowInput) (st : PState) : PState × Option RunErr :=
  match r.docUrl, r.websiteUrl with
  | some d, some w =>
    (match extract_file_id (some d) with
    | none => (st, none)
    | some fid =>
      match download_pdf fid (some (sanitize_filename (some w))) r.attempts 3 with
      | (none, _, _) => (st, none)
      | (some path, _, _) =>
        match r.doc with
        | Except.error _ => ({ st with fs := fsCreate st.fs path }, some RunErr.openError)
        | Except.ok pages =>
          let links := extract_editorial_links_from_pdf pages r.net
          if links.isEmpty then
            ({ st with el := some links, fs := fsRemove (fsCreate st.fs path) path }, none)
          else
            let title := replaceList (cs ("_")) (cs ("/")) (sanitize_filename (some w))
            let recd : ResultRecord := { title := title, links := links }
            ({ st with
                results := st.results ++ (recd :: recd :: links.map (fun _ => recd)),
                ft := some title,
                el := some links,
                fs := fsRemove (fsCreate st.fs path) path }, none))
  | _, _ =>
    match st.ft, st.el with
    | some f, some e => ({ st with results := st.results ++ [{ title := f, links := e }] }, none)
    | _, _ => (st, some RunErr.nameError)

/-- The row loop: rows in order, stopping at the first propagating exception. -/
def processRows : List RowInput → PState → PState × Option RunErr
  | [], st => (st, none)
  | r :: rs, st =>
    match processRow r st with
    | (st1, none) => processRows rs st1
    | (st1, some e) => (st1, some e)

/-- The row source: whether the two required columns are present, and the rows. -/
structure Sheet where
  hasCols : Bool
  rows : List RowInput

/-- process_google_docs_from_excel (app.py lines 96-144): reject a sheet
missing the two required columns (returning nothing), otherwise run the row
loop from an empty state.  Returns the returned results (none when the
function does not return normally), the final set of local files, and the
propagated exception if any. -/
def process_google_docs_from_excel (sheet : Sheet) :
    Option (List ResultRecord) × List (List Char) × Option RunErr :=
  if sheet.hasCols then
    match processRows sheet.rows { results := [], ft := none, el := none, fs := [] } with
    | (st, none) => (some st.results, st.fs, none)
    | (st, some e) => (none, st.fs, some e)
  else (none, [], none)

/-! Spec-side definitions.  The following functions follow the wording of the
specification (ordering: pages in document order, embedded links before
plain-text links, each group in discovery order; one block of appended records
per row, blocks in input row order) and are compared with the source-derived
functions above by the theorems below. -/

/-- Modelled from the spec: the confirmed embedded links of one page, in
discovery order. -/
def pageEmbedded (net : Net) (p : Page) : List (List Char) :=
  p.links.filterMap (fun l =>
    match l with
    | some u => if check_editorial_use net u = Verdict.confirmed then some u else none
    | none => none)

/-- Modelled from the spec: the confirmed plain-text links of one page that
carry the allowed-host token, in discovery order. -/
def pageTextConfirmed (net : Net) (p : Page) : List (List Char) :=
  (findall p.text).filter
    (fun u => substrB (cs ("123rf")) u && decide (check_editorial_use net u = Verdict.confirmed))

/-- Modelled from the spec: all confirmed links of one page, embedded first. -/
def pageConfirmed (net : Net) (p : Page) : List (List Char) :=
  pageEmbedded net p ++ pageTextConfirmed net p

/-- Modelled from the spec: the confirmed links of a document, page by page. -/
def docConfirmed (net : Net) : List Page → List (List Char)
  | [] => []
  | p :: ps => pageConfirmed net p ++ docConfirmed net ps

/-- The embedded-link confirmations of a whole document, page by page. -/
def docEmbedded (net : Net) : List Page → List (List Char)
  | [] => []
  | p :: ps => pageEmbedded net p ++ docEmbedded net ps

/-- The block of records the row loop appends for one row, given the incoming
values of the two locals. -/
def rowBlock (ft : Option (List Char)) (el : Option (List (List Char)))
    (r : RowInput) : List ResultRecord :=
  match r.docUrl, r.websiteUrl with
  | some d, some w =>
    (match extract_file_id (some d) with
    | none => []
    | some fid =>
      match download_pdf fid (some (sanitize_filename (some w))) r.attempts 3 with
      | (none, _, _) => []
      | (some _, _, _) =>
        match r.doc with
        | Except.error _ => []
        | Except.ok pages =>
          let links := extract_editorial_links_from_pdf pages r.net
          if links.isEmpty then []
          else
            let title := replaceList (cs ("_")) (cs ("/")) (sanitize_filename (some w))
            let recd : ResultRecord := { title := title, links := links }
            recd :: recd :: links.map (fun _ => recd))
  | _, _ =>
    match ft, el with
    | some f, some e => [{ title := f, links := e }]
    | _, _ => []

/-- The values of the two locals after one row. -/
def rowVarsAfter (ft : Option (List Char)) (el : Option (List (List Char)))
    (r : RowInput) : Option (List Char) × Option (List (List Char)) :=
  match r.docUrl, r.websiteUrl with
  | some d, some w =>
    (match extract_file_id (some d) with
    | none => (ft, el)
    | some fid =>
      match download_pdf fid (some (sanitize_filename (some w))) r.attempts 3 with
      | (none, _, _) => (ft, el)
      | (some _, _, _) =>
        match r.doc with
        | Except.error _ => (ft, el)
        | Except.ok pages =>
          let links := extract_editorial_links_from_pdf pages r.net
          if links.isEmpty then (ft, some links)
          else (some (replaceList (cs ("_")) (cs ("/")) (sanitize_filename (some w))),
            some links))
  | _, _ => (ft, el)

/-- The local files present after one row. -/
def rowFs (fs : List (List Char)) (r : RowInput) : List (List Char) :=
  match r.docUrl, r.websiteUrl with
  | some d, some w =>
    (match extract_file_id (some d) with
    | none => fs
    | some fid =>
      match download_pdf fid (some (sanitize_filename (some w))) r.attempts 3 with
      | (none, _, _) => fs
      | (some path, _, _) =>
        match r.doc with
        | Except.error _ => fsCreate fs path
        | Except.ok _ => fsRemove (fsCreate fs path) path)
  | _, _ => fs

/-- The exception one row raises, if any. -/
def rowErr (ft : Option (List Char)) (el : Option (List (List Char)))
    (r : RowInput) : Option RunErr :=
  match r.docUrl, r.websiteUrl with
  | some d, some w =>
    (match extract_file_id (some d) with
    | none => none
    | some fid =>
      match download_pdf fid (some (sanitize_filename (some w))) r.attempts 3 with
      | (none, _, _) => none
      | (some _, _, _) =>
        match r.doc with
        | Except.error _ => some RunErr.openError
        | Except.ok _ => none)
  | _, _ =>
    match ft, el with
    | some _, some _ => none
    | _, _ => some RunErr.nameError

/-- Modelled from the spec: the record sequence of a whole run is the
concatenation of per-row blocks, rows in input order. -/
def blocksFrom (ft : Option (List Char)) (el : Option (List (List Char))) :
    List RowInput → List ResultRecord
  | [] => []
  | r :: rs =>
    rowBlock ft el r ++ blocksFrom (rowVarsAfter ft el r).1 (rowVarsAfter ft el r).2 rs

/-! Concrete inputs used by the evaluation theorems and witnesses. -/

/-- A document reference with a well-formed id. -/
def du1 : List Char := cs ("https://docs.google.com/document/d/AB12")

/-- A label cell. -/
def wu1 : List Char := cs ("site")

/-- A link on the allowed host. -/
def url123 : List Char := cs ("https://123rf.com/p")

/-- A network where every classification returns 200 with the marker present. -/
def okNet : Net := fun _ => ClassOutcome.response 200 true

/-- A fetch oracle where every attempt returns status 200. -/
def okAttempts : Nat → Attempt := fun _ => Attempt.response 200

/-- A page with a single embedded link to the allowed host and no text. -/
def page1 : Page := { links := [some url123], text := [] }

/-- A fully qualifying row: both cells present, id extractable, fetch succeeds,
document opens to one page with one confirmed link. -/
def row1 : RowInput :=
  { docUrl := some du1, websiteUrl := some wu1, attempts := okAttempts,
    doc := Except.ok [page1], net := okNet }

/-- The record row1 produces. -/
def rec1 : ResultRecord := { title := cs ("site"), links := [url123] }

/-- A row whose label cell is missing. -/
def rowMiss : RowInput :=
  { docUrl := some du1, websiteUrl := none, attempts := okAttempts,
    doc := Except.error (), net := okNet }

/-- A row whose fetch succeeds but whose document fails to open. -/
def rowOpenFail : RowInput :=
  { docUrl := some du1, websiteUrl := some wu1, attempts := okAttempts,
    doc := Except.error (), net := okNet }

/-! Helper lemmas. -/

/-- A prefix is never longer than the list it starts. -/
lemma isPreOf_length_le : ∀ p s : List Char, isPreOf p s = true → p.length ≤ s.length := by
  intro p
  induction p with
  | nil => intro s _; simp
  | cons a as ih =>
    intro s h
    cases s with
    | nil => simp [isPreOf] at h
    | cons b bs =>
      simp only [isPreOf, Bool.and_eq_true, decide_eq_true_eq] at h
      have := ih bs h.2
      simp only [List.length_cons]
      omega

/-- Every character of a prefix occurs in the prefixed list. -/
lemma isPreOf_mem : ∀ p s : List Char, isPreOf p s = true → ∀ a, a ∈ p → a ∈ s := by
  intro p
  induction p with
  | nil => intro s _ a ha; simp at ha
  | cons x xs ih =>
    intro s h a ha
    cases s with
    | nil => simp [isPreOf] at h
    | cons b bs =>
      simp only [isPreOf, Bool.and_eq_true, decide_eq_true_eq] at h
      rcases List.mem_cons.mp ha with rfl | ha2
      · rw [h.1]; exact List.mem_cons_self _ _
      · exact List.mem_cons_of_mem _ (ih bs h.2 a ha2)

/-- replaceFuel leaves a list alone when some pattern character never occurs in it. -/
lemma replaceFuel_no_occurrence (pat rep : List Char) (c : Char) (hcp : c ∈ pat) :
    ∀ (fuel : Nat) (l : List Char), (∀ x ∈ l, x ≠ c) → replaceFuel pat rep fuel l = l := by
  intro fuel
  induction fuel with
  | zero => intro l _; rfl
  | succ k ih =>
    intro l hl
    cases l with
    | nil => rfl
    | cons x t =>
      have hcond : ¬(pat ≠ [] ∧ isPreOf pat (x :: t) = true) := by
        rintro ⟨_, hpre⟩
        exact hl c (isPreOf_mem pat (x :: t) hpre c hcp) rfl
      rw [replaceFuel, if_neg hcond]
      rw [ih t (fun y hy => hl y (List.mem_cons_of_mem _ hy))]

/-- replaceList leaves a list alone when some pattern character never occurs in it. -/
lemma replaceList_no_occurrence (pat rep l : List Char) (c : Char) (hcp : c ∈ pat)
    (hl : ∀ x ∈ l, x ≠ c) : replaceList pat rep l = l :=
  replaceFuel_no_occurrence pat rep c hcp l.length l hl

/-- replChar never produces an invalid character. -/
lemma replChar_no_invalid (x : Char) : invalidFileChar (replChar x) = false := by
  unfold replChar
  by_cases h : invalidFileChar x = true
  · rw [if_pos h]; decide
  · rw [if_neg h]; simpa using h

/-- Every character of a sanitized string is valid. -/
lemma sanitize_no_invalid (s : List Char) :
    ∀ c ∈ sanitize_filename (some s), invalidFileChar c = false := by
  intro c hc
  unfold sanitize_filename at hc
  have hc2 : c ∈ (replaceList (cs ("http://")) []
      (replaceList (cs ("https://")) [] (pyStrip s))).map replChar :=
    List.mem_of_mem_take hc
  rcases List.mem_map.mp hc2 with ⟨x, _, hxe⟩
  rw [← hxe]
  exact replChar_no_invalid x

/-- A sanitized string has at most 200 characters. -/
lemma sanitize_length_le (s : List Char) : (sanitize_filename (some s)).length ≤ 200 := by
  unfold sanitize_filename
  simp [List.length_take]

/-- Removing a file removes it from the file set. -/
lemma not_mem_fsRemove (fs : List (List Char)) (p : List Char) : p ∉ fsRemove fs p := by
  intro hmem
  rw [fsRemove, List.mem_filter] at hmem
  simp at hmem

/-! Theorems for the claims. -/

/-- C1: for a qualifying input row (both cells present, id extracted, fetch
succeeded, one confirmed link) the code appends the row's record three times
(twice unconditionally plus once per confirmed link, app.py lines 129, 134,
138), not exactly once as the intended contract states. -/
theorem c1_duplicate_append :
    (process_google_docs_from_excel ⟨true, [row1]⟩).1 = some [rec1, rec1, rec1] := by
  rfl

/-- C2: a row with a missing label cell is not silently skipped: the append on
app.py line 114 runs with the stale locals of the previous qualifying row, so
after one qualifying row (three appended records) the skipped row appends a
fourth copy of the previous record instead of nothing. -/
theorem c2_missing_row_appends_stale :
    (process_google_docs_from_excel ⟨true, [row1, rowMiss]⟩).1 =
      some [rec1, rec1, rec1, rec1] := by
  rfl

/-- C3: a run over a well-formed sheet does not always complete: when the first
row has a missing cell, the append on app.py line 114 references the still
unbound locals formatted_title and editorial_links and the run aborts with a
NameError instead of returning a result list. -/
theorem c3_missing_row_aborts_run :
    process_google_docs_from_excel ⟨true, [rowMiss]⟩ = (none, [], some RunErr.nameError) := by
  rfl

/-- C4 counterexample: on the exception exit path of link extraction the local
file is not deleted — for a row whose fetch succeeds and whose document fails
to open, the run aborts and the rendered file site.pdf is still present. -/
theorem c4_file_survives_open_failure :
    process_google_docs_from_excel ⟨true, [rowOpenFail]⟩ =
      (none, [cs ("site.pdf")], some RunErr.openError) := by
  rfl

/-- C5 counterexample: an embedded hyperlink is appended without the
allowed-host filter — a confirmed embedded link to example.com is returned
even though it does not contain the 123rf token. -/
theorem c5_embedded_link_unfiltered :
    cs ("https://example.com/a") ∈
      extract_editorial_links_from_pdf
        [{ links := [some (cs ("https://example.com/a"))], text := [] }] okNet ∧
    substrB (cs ("123rf")) (cs ("https://example.com/a")) = false := by
  constructor
  · exact List.mem_cons_self _ _
  · rfl

/-- C7 counterexample: sanitize_filename applied to the empty string returns
the empty string, not the placeholder Untitled — the isinstance check on
app.py line 23 accepts the empty string. -/
theorem c7_empty_string_not_untitled :
    sanitize_filename (some []) ≠ cs ("Untitled") := by
  decide

/-- C7 (amended): sanitize_filename returns the placeholder Untitled exactly
for a missing or non-string input; the empty string sanitizes to the empty
string. -/
theorem c7_untitled_only_for_missing :
    sanitize_filename none = cs ("Untitled") ∧ sanitize_filename (some []) = [] := by
  exact ⟨rfl, rfl⟩

/-- C8 counterexample: sanitize_filename is not idempotent — removing a
mid-string URL scheme can expose trailing whitespace, which a second pass
strips: sanitizing a-space-https:// gives a-space, sanitizing again gives a. -/
theorem c8_not_idempotent_in_general :
    sanitize_filename (some (sanitize_filename (some (cs ("a https://"))))) ≠
      sanitize_filename (some (cs ("a https://"))) := by
  decide

/-- C6: download_pdf returns the failure result after exactly one attempt when
the first response carries a non-200 status (no retry), and on transport-level
exceptions it keeps retrying until exactly max-retries attempts are exhausted
before returning the failure result. -/
theorem c6_retry_policy (fileId : List Char) (fileName : Option (List Char))
    (oracle : Nat → Attempt) (mr : Nat) :
    (∀ code, 0 < mr → oracle 0 = Attempt.response code → code ≠ 200 →
      download_pdf fileId fileName oracle mr = (none, 1, [])) ∧
    ((∀ i, i < mr → oracle i = Attempt.exc) →
      download_pdf fileId fileName oracle mr = (none, mr, [])) := by
  constructor
  · intro code hmr h0 hne
    unfold download_pdf
    cases mr with
    | zero => omega
    | succ k => simp [downloadLoop, h0, hne]
  · intro hall
    unfold download_pdf
    have hgen : ∀ (fuel rc : Nat), (∀ i, rc ≤ i → i < rc + fuel → oracle i = Attempt.exc) →
        downloadLoop oracle (sanitize_filename fileName ++ cs (".pdf")) fuel rc =
          (none, rc + fuel, []) := by
      intro fuel
      induction fuel with
      | zero => intro rc _; simp [downloadLoop]
      | succ k ih =>
        intro rc h
        have h0 : oracle rc = Attempt.exc := h rc (Nat.le_refl rc) (by omega)
        have hrest := ih (rc + 1) (fun i h1 h2 => h i (by omega) (by omega))
        have harith : rc + 1 + k = rc + (k + 1) := by omega
        rw [downloadLoop, h0, hrest, harith]
    have := hgen mr 0 (fun i _ h2 => hall i (by omega))
    simpa using this

/-- C6 witness: with max-retries 3, a first 404 response fails after one
attempt, and three straight exceptions fail after exactly three attempts. -/
theorem c6_retry_policy_witness :
    download_pdf (cs ("A")) (some (cs ("n"))) (fun _ => Attempt.response 404) 3 =
      (none, 1, []) ∧
    download_pdf (cs ("A")) (some (cs ("n"))) (fun _ => Attempt.exc) 3 = (none, 3, []) :=
  ⟨(c6_retry_policy (cs ("A")) (some (cs ("n"))) (fun _ => Attempt.response 404) 3).1
      404 (by decide) rfl (by decide),
   (c6_retry_policy (cs ("A")) (some (cs ("n"))) (fun _ => Attempt.exc) 3).2
      (fun _ _ => rfl)⟩

/-- A successful download loop returns the file name it was given and writes
exactly that file. -/
lemma downloadLoop_success (oracle : Nat → Attempt) (pdfName : List Char) :
    ∀ (fuel rc : Nat) (path : List Char) (n : Nat) (files : List (List Char)),
    downloadLoop oracle pdfName fuel rc = (some path, n, files) →
    path = pdfName ∧ files = [pdfName] := by
  intro fuel
  induction fuel with
  | zero => intro rc path n files h; simp [downloadLoop] at h
  | succ k ih =>
    intro rc path n files h
    rw [downloadLoop] at h
    cases ho : oracle rc with
    | response code =>
      rw [ho] at h
      by_cases hc : code = 200
      · subst hc
        dsimp only at h
        rw [if_pos rfl] at h
        injection h with h1 h2
        injection h2 with h2 h3
        injection h1 with h1
        exact ⟨h1.symm, h3.symm⟩
      · simp [hc] at h
    | exc =>
      rw [ho] at h
      exact ih (rc + 1) path n files h

/-- C10: download_pdf sanitizes the file-name argument internally — whenever it
succeeds, the returned path and the single file it wrote are exactly the
sanitized name suffixed with .pdf, for any (possibly unsanitized) argument. -/
theorem c10_download_sanitizes_name (fileId : List Char) (fileName : Option (List Char))
    (oracle : Nat → Attempt) (mr : Nat) (path : List Char) (n : Nat)
    (files : List (List Char))
    (h : download_pdf fileId fileName oracle mr = (some path, n, files)) :
    path = sanitize_filename fileName ++ cs (".pdf") ∧ files = [path] := by
  unfold download_pdf at h
  have := downloadLoop_success oracle _ mr 0 path n files h
  exact ⟨this.1, by rw [this.2, this.1]⟩

/-- C10 witness: an unsanitized label with a scheme and a slash yields the
sanitized pdf path. -/
theorem c10_download_sanitizes_name_witness :
    download_pdf (cs ("A")) (some (cs ("https://a/b"))) okAttempts 3 =
      (some (cs ("a_b.pdf")), 1, [cs ("a_b.pdf")]) ∧
    cs ("a_b.pdf") = sanitize_filename (some (cs ("https://a/b"))) ++ cs (".pdf") ∧
    [cs ("a_b.pdf")] = [cs ("a_b.pdf")] :=
  ⟨rfl, (c10_download_sanitizes_name (cs ("A")) (some (cs ("https://a/b"))) okAttempts 3
      (cs ("a_b.pdf")) 1 [cs ("a_b.pdf")] rfl).1,
    by rfl⟩

/-- The embedded-link loop of one page appends exactly the confirmed embedded
links, in discovery order, after whatever was accumulated before. -/
lemma embedFold_eq (net : Net) : ∀ (ls : List (Option (List Char))) (a : List (List Char)),
    ls.foldl
      (fun a l =>
        match l with
        | some url =>
          if check_editorial_use net url = Verdict.confirmed then a ++ [url] else a
        | none => a) a =
    a ++ ls.filterMap (fun l =>
      match l with
      | some u => if check_editorial_use net u = Verdict.confirmed then some u else none
      | none => none) := by
  intro ls
  induction ls with
  | nil => intro a; simp
  | cons l t ih =>
    intro a
    cases l with
    | none => simpa using ih a
    | some u =>
      rw [List.foldl_cons, List.filterMap_cons]
      dsimp only
      by_cases hc : check_editorial_use net u = Verdict.confirmed
      · rw [if_pos hc, if_pos hc, ih (a ++ [u])]
        simp
      · rw [if_neg hc, if_neg hc]
        exact ih a

/-- The text-link loop of one page appends exactly the confirmed 123rf text
links, in discovery order, after whatever was accumulated before. -/
lemma textFold_eq (net : Net) : ∀ (us : List (List Char)) (a : List (List Char)),
    us.foldl
      (fun a url =>
        if substrB (cs ("123rf")) url then
          if check_editorial_use net url = Verdict.confirmed then a ++ [url] else a
        else a) a =
    a ++ us.filter
      (fun u => substrB (cs ("123rf")) u &&
        decide (check_editorial_use net u = Verdict.confirmed)) := by
  intro us
  induction us with
  | nil => intro a; simp
  | cons u t ih =>
    intro a
    by_cases hs : substrB (cs ("123rf")) u = true
    · by_cases hc : check_editorial_use net u = Verdict.confirmed
      · simp only [List.foldl_cons, if_pos hs, if_pos hc]
        rw [List.filter_cons_of_pos (by simp [hs, hc]), ih (a ++ [u])]
        simp
      · simp only [List.foldl_cons, if_pos hs, if_neg hc]
        rw [List.filter_cons_of_neg (by simp [hc])]
        exact ih a
    · simp only [List.foldl_cons, if_neg hs]
      rw [List.filter_cons_of_neg (by simp [hs])]
      exact ih a

/-- The extractor returns exactly the spec-side page-ordered confirmed links:
pages in document order, each page's embedded confirmations before its
plain-text confirmations, each group in discovery order. -/
lemma extract_eq_docConfirmed (pages : List Page) (net : Net) :
    extract_editorial_links_from_pdf pages net = docConfirmed net pages := by
  unfold extract_editorial_links_from_pdf
  suffices h : ∀ (ps : List Page) (a : List (List Char)),
      ps.foldl
        (fun acc page =>
          (findall page.text).foldl
            (fun a url =>
              if substrB (cs ("123rf")) url then
                if check_editorial_use net url = Verdict.confirmed then a ++ [url] else a
              else a)
            (page.links.foldl
              (fun a l =>
                match l with
                | some url =>
                  if check_editorial_use net url = Verdict.confirmed then a ++ [url] else a
                | none => a)
              acc)) a = a ++ docConfirmed net ps by
    simpa using h pages []
  intro ps
  induction ps with
  | nil => intro a; simp [docConfirmed]
  | cons p t ih =>
    intro a
    simp only [List.foldl_cons]
    rw [embedFold_eq net p.links a, textFold_eq net (findall p.text) _, ih]
    simp [docConfirmed, pageConfirmed, pageEmbedded, pageTextConfirmed, List.append_assoc]

/-- C5 (amended): every link the extractor returns either contains the 123rf
allowed-host token or was discovered as an embedded hyperlink; in particular
every plain-text-discovered link contains the token, while embedded links are
not host-filtered. -/
theorem c5_host_filter_text_only (pages : List Page) (net : Net) (u : List Char)
    (h : u ∈ extract_editorial_links_from_pdf pages net) :
    substrB (cs ("123rf")) u = true ∨ u ∈ docEmbedded net pages := by
  rw [extract_eq_docConfirmed] at h
  induction pages with
  | nil => simp [docConfirmed] at h
  | cons p ps ih =>
    simp only [docConfirmed, List.mem_append] at h
    rcases h with h | h
    · unfold pageConfirmed at h
      rcases List.mem_append.mp h with h1 | h2
      · right
        simp only [docEmbedded, List.mem_append]
        exact Or.inl h1
      · left
        have := (List.mem_filter.mp h2).2
        exact (Bool.and_eq_true _ _ ▸ this).1
    · rcases ih h with hs | he
      · exact Or.inl hs
      · right
        simp only [docEmbedded, List.mem_append]
        exact Or.inr he

/-- C5 witness: a confirmed plain-text 123rf link is returned and contains the
token (and trivially satisfies the disjunction). -/
theorem c5_host_filter_text_only_witness :
    cs ("https://123rf.com/x") ∈
      extract_editorial_links_from_pdf
        [{ links := [], text := cs ("see https://123rf.com/x ok") }] okNet ∧
    (substrB (cs ("123rf")) (cs ("https://123rf.com/x")) = true ∨
      cs ("https://123rf.com/x") ∈
        docEmbedded okNet [{ links := [], text := cs ("see https://123rf.com/x ok") }]) :=
  ⟨by decide,
   c5_host_filter_text_only
     [{ links := [], text := cs ("see https://123rf.com/x ok") }] okNet
     (cs ("https://123rf.com/x")) (by decide)⟩

/-- One row-loop iteration, characterized: the records it appends, the new
values of the two locals, the new file set and the raised exception are the
four spec-side functions above. -/
lemma processRow_eq (r : RowInput) (st : PState) :
    processRow r st =
      ({ results := st.results ++ rowBlock st.ft st.el r,
         ft := (rowVarsAfter st.ft st.el r).1,
         el := (rowVarsAfter st.ft st.el r).2,
         fs := rowFs st.fs r }, rowErr st.ft st.el r) := by
  obtain ⟨res0, ft0, el0, fs0⟩ := st
  rcases hd : r.docUrl with _ | d
  · rcases ft0 with _ | f <;> rcases el0 with _ | e <;>
      simp [processRow, rowBlock, rowVarsAfter, rowFs, rowErr, hd]
  · rcases hw : r.websiteUrl with _ | w
    · rcases ft0 with _ | f <;> rcases el0 with _ | e <;>
        simp [processRow, rowBlock, rowVarsAfter, rowFs, rowErr, hd, hw]
    · rcases hfi : extract_file_id (some d) with _ | fid
      · simp [processRow, rowBlock, rowVarsAfter, rowFs, rowErr, hd, hw, hfi]
      · rcases hdl : download_pdf fid (some (sanitize_filename (some w))) r.attempts 3 with
          ⟨ores, n, files⟩
        rcases ores with _ | path
        · simp [processRow, rowBlock, rowVarsAfter, rowFs, rowErr, hd, hw, hfi, hdl]
        · rcases hdoc : r.doc with u | pages
          · simp [processRow, rowBlock, rowVarsAfter, rowFs, rowErr, hd, hw, hfi, hdl, hdoc]
          · by_cases hl : (extract_editorial_links_from_pdf pages r.net).isEmpty
            · simp [processRow, rowBlock, rowVarsAfter, rowFs, rowErr, hd, hw, hfi, hdl,
                hdoc, hl]
            · simp [processRow, rowBlock, rowVarsAfter, rowFs, rowErr, hd, hw, hfi, hdl,
                hdoc, hl]

/-- A completed row loop appends exactly the per-row blocks, rows in order. -/
lemma processRows_ok : ∀ (rs : List RowInput) (st st1 : PState),
    processRows rs st = (st1, none) →
    st1.results = st.results ++ blocksFrom st.ft st.el rs := by
  intro rs
  induction rs with
  | nil =>
    intro st st1 h
    simp only [processRows] at h
    injection h with h1 _
    rw [← h1]
    simp [blocksFrom]
  | cons r t ih =>
    intro st st1 h
    simp only [processRows] at h
    rw [processRow_eq r st] at h
    cases herr : rowErr st.ft st.el r with
    | some e => rw [herr] at h; simp at h
    | none =>
      rw [herr] at h
      simp only at h
      have := ih _ st1 h
      simp only at this
      rw [this, blocksFrom, List.append_assoc]

/-- C9: the output record sequence is the concatenation of per-row blocks in
input row order, and for every row whose document opened, the extractor's link
sequence (used by that row's records) lists the confirmed links in page order,
each page's embedded-link confirmations before its plain-text confirmations,
each group in discovery order. -/
theorem c9_output_order (sheet : Sheet) (res : List ResultRecord)
    (fsOut : List (List Char)) (r : RowInput) (pages : List Page)
    (h : process_google_docs_from_excel sheet = (some res, fsOut, none))
    (hr : r ∈ sheet.rows) (hdoc : r.doc = Except.ok pages) :
    res = blocksFrom none none sheet.rows ∧
    extract_editorial_links_from_pdf pages r.net = docConfirmed r.net pages := by
  refine ⟨?_, extract_eq_docConfirmed pages r.net⟩
  unfold process_google_docs_from_excel at h
  by_cases hc : sheet.hasCols = true
  · rw [if_pos hc] at h
    rcases hp : processRows sheet.rows { results := [], ft := none, el := none, fs := [] }
      with ⟨st, err⟩
    rw [hp] at h
    cases err with
    | none =>
      simp only at h
      injection h with h1 h2
      injection h1 with h1
      rw [← h1]
      simpa using processRows_ok sheet.rows _ st hp
    | some e => simp at h
  · rw [if_neg hc] at h
    simp at h

/-- C9 witness: a one-row run where the row qualifies. -/
theorem c9_output_order_witness :
    process_google_docs_from_excel ⟨true, [row1]⟩ = (some [rec1, rec1, rec1], [], none) ∧
    row1 ∈ [row1] ∧ row1.doc = Except.ok [page1] ∧
    ([rec1, rec1, rec1] = blocksFrom none none [row1] ∧
      extract_editorial_links_from_pdf [page1] row1.net = docConfirmed row1.net [page1]) :=
  ⟨rfl, List.mem_cons_self _ _, rfl,
   c9_output_order ⟨true, [row1]⟩ [rec1, rec1, rec1] [] row1 [page1] rfl
     (List.mem_cons_self _ _) rfl⟩

/-- C4 (amended): for every row whose fetch succeeds and whose link extraction
returns normally — with confirmed links or with none — the local rendered file
is deleted before the row's processing completes; only the exception exit path
(document-open failure, see the counterexample) leaves the file behind. -/
theorem c4_deleted_on_normal_return (r : RowInput) (st : PState)
    (d w fid path : List Char) (n : Nat) (files : List (List Char)) (pages : List Page)
    (hd : r.docUrl = some d) (hw : r.websiteUrl = some w)
    (hfi : extract_file_id (some d) = some fid)
    (hdl : download_pdf fid (some (sanitize_filename (some w))) r.attempts 3 =
      (some path, n, files))
    (hdoc : r.doc = Except.ok pages) :
    path ∉ ((processRow r st).1).fs := by
  rw [processRow_eq]
  simp only [rowFs, hd, hw, hfi, hdl, hdoc]
  exact not_mem_fsRemove _ _

/-- C4 witness: the qualifying row's file site.pdf is gone after the row. -/
theorem c4_deleted_on_normal_return_witness :
    row1.docUrl = some du1 ∧ row1.websiteUrl = some wu1 ∧
    extract_file_id (some du1) = some (cs ("AB12")) ∧
    download_pdf (cs ("AB12")) (some (sanitize_filename (some wu1))) row1.attempts 3 =
      (some (cs ("site.pdf")), 1, [cs ("site.pdf")]) ∧
    row1.doc = Except.ok [page1] ∧
    cs ("site.pdf") ∉
      ((processRow row1 { results := [], ft := none, el := none, fs := [] }).1).fs :=
  ⟨rfl, rfl, rfl, rfl, rfl,
   c4_deleted_on_normal_return row1 { results := [], ft := none, el := none, fs := [] }
     du1 wu1 (cs ("AB12")) (cs ("site.pdf")) 1 [cs ("site.pdf")] [page1]
     rfl rfl rfl rfl rfl⟩

/-- A string that is already stripped, free of invalid characters and at most
200 characters long is a fixed point of sanitize_filename: scheme removal is
the identity on it because the schemes contain a slash and slashes were
substituted away, character substitution is the identity, and truncation is
the identity. -/
lemma sanitize_fix (t : List Char) (hst : pyStrip t = t)
    (hinv : ∀ c ∈ t, invalidFileChar c = false) (hlen : t.length ≤ 200) :
    sanitize_filename (some t) = t := by
  have hsl : ∀ x ∈ t, x ≠ '/' := by
    intro x hx he
    have := hinv x hx
    rw [he] at this
    exact absurd this (by decide)
  have hmap : t.map replChar = t := by
    rw [List.map_congr_left (g := id) (fun a ha => by
      unfold replChar
      rw [if_neg (by rw [hinv a ha]; exact Bool.false_ne_true)]
      rfl)]
    exact List.map_id t
  show ((replaceList (cs ("http://")) []
      (replaceList (cs ("https://")) [] (pyStrip t))).map replChar).take 200 = t
  rw [hst,
    replaceList_no_occurrence (cs ("https://")) [] t '/' (by decide) hsl,
    replaceList_no_occurrence (cs ("http://")) [] t '/' (by decide) hsl,
    hmap, List.take_of_length_le hlen]

/-- C8 (amended): sanitize_filename is idempotent on every input whose
sanitized form carries no leading or trailing whitespace; in general a second
application can differ only by stripping edge whitespace exposed by mid-string
scheme removal or by truncation (see the counterexample). -/
theorem c8_idempotent_on_stripped_outputs (s : List Char)
    (h : pyStrip (sanitize_filename (some s)) = sanitize_filename (some s)) :
    sanitize_filename (some (sanitize_filename (some s))) = sanitize_filename (some s) :=
  sanitize_fix (sanitize_filename (some s)) h (sanitize_no_invalid s) (sanitize_length_le s)

/-- C8 witness: an ordinary label whose sanitized form is stripped. -/
theorem c8_idempotent_on_stripped_outputs_witness :
    pyStrip (sanitize_filename (some (cs ("https://abc.de/f")))) =
      sanitize_filename (some (cs ("https://abc.de/f"))) ∧
    sanitize_filename (some (sanitize_filename (some (cs ("https://abc.de/f"))))) =
      sanitize_filename (some (cs ("https://abc.de/f"))) :=
  ⟨rfl, c8_idempotent_on_stripped_outputs (cs ("https://abc.de/f")) rfl⟩

end EditorialLinks
